import Mathlib

/-!
Shallow embedding of the `grid` crate (`src/lib.rs`): a runtime-sized 2d
array `Array2<T>` stored row-major in one contiguous allocation, with
constructors, accessors, element/row/window iterators, ordering/equality
and a structured codec.

Modelling conventions:
* `u32`/`usize`/`isize` values are `Nat`; every arithmetic expression the
  code can actually reach stays in range, so no wraparound is modelled.
* The heap buffer behind `ptr` is a `List T` (`data`), addresses are
  element-unit offsets from the base pointer (base = 0); for a
  zero-sized `T` the code does byte-free counter arithmetic in the same
  unit, so the same `Nat` offsets model both branches of
  `mem::size_of::<T>() > 0`.  A read of address `k` is `data.getD k default`
  (on every live array the code only reads inside the allocation; for a
  zero-sized type the unique value is `default`).
* The compile-time fact `mem::size_of::<T>() > 0` is an explicit `sized :
  Bool` parameter.
* `allocated` models `*ptr != heap::EMPTY`.
* Iterators (`Items`, `Rows`, `View`, and their `Mut` twins) are
  `ptr < end` loops that yield the current pointer (plus a slice length)
  and advance by a fixed step; `collectPtrs` replays such a loop.  The
  fuel argument is always at least the number of steps the loop makes,
  so the collected list is exactly what the Rust iterator yields.
-/

namespace Grid

variable {T E Err : Type}

/-- `Array2<T>`: `ptr` (modelled by `data` + `allocated`), `width`, `height`. -/
structure Array2 (T : Type) where
  data : List T
  width : Nat
  height : Nat
  allocated : Bool
  deriving Repr, DecidableEq

/-- `Array2::from_fn`: allocates iff `size_of::<T>() > 0 && width > 0 && height > 0`,
then writes `f()` into offsets `0..width*height` in order.  The `FnMut`
closure is modelled by indexing `f` with the call number, so the value of
the `k`-th call is `f k`. -/
def from_fn (sized : Bool) (width height : Nat) (f : Nat → T) : Array2 T :=
  let allocation_required := sized && decide (width > 0) && decide (height > 0)
  if allocation_required then
    { data := (List.range (width * height)).map f,
      width := width, height := height, allocated := true }
  else
    { data := [], width := width, height := height, allocated := false }

/-- The coordinate iterator of `from_fn_with_points`:
`(0..height).flat_map(|y| iter::repeat(y).zip(0..width))`.
Note `zip` puts the repeated `y` FIRST in each pair. -/
def coordSeq (width height : Nat) : List (Nat × Nat) :=
  (List.range height).flatMap (fun y => (List.range width).map (fun c => (y, c)))

/-- `Array2::from_fn_with_points`: pulls the next pair off `coordSeq`,
destructures it as `let (x, y) = iter.next().unwrap()` and calls `f x y`.
(The `unwrap` cannot fire: `from_fn` calls the closure at most
`width*height` times, the length of `coordSeq`.) -/
def from_fn_with_points (sized : Bool) (width height : Nat) (f : Nat → Nat → T) : Array2 T :=
  from_fn sized width height (fun k =>
    let p := (coordSeq width height).getD k (0, 0)
    f p.1 p.2)

/-- `Array2::from_elem`: `from_fn` with a closure cloning `element`. -/
def from_elem (sized : Bool) (width height : Nat) (element : T) : Array2 T :=
  from_fn sized width height (fun _ => element)

/-- `Array2::from_default`: `from_fn` with `T::default()`; the default value
is passed explicitly. -/
def from_default (sized : Bool) (width height : Nat) (d : T) : Array2 T :=
  from_fn sized width height (fun _ => d)

/-- How many times `from_fn` invokes the factory `f`: the fill loop
`for offset in 0..count` runs `count = width*height` times, but only when
`allocation_required` (`size_of::<T>() > 0 && width > 0 && height > 0`)
holds — in the `else` branch (zero-sized `T`, or a zero dimension) `f` is
never called. -/
def from_fn_invocations (sized : Bool) (width height : Nat) : Nat :=
  let allocation_required := sized && decide (width > 0) && decide (height > 0)
  if allocation_required then width * height else 0

namespace Array2

variable {T : Type}

/-- `Array2::end()`: base + `width*height`, in element units for a sized `T`
and in raw counter units for a zero-sized `T` — the same `Nat` here. -/
def endOff (a : Array2 T) : Nat :=
  a.width * a.height

/-- `Array2::get`: bounds check, then `as_ref` on
`ptr.offset(x + y*width)`, which is `Some` on every live array. -/
def get [Inhabited T] (a : Array2 T) (x y : Nat) : Option T :=
  if x < a.width ∧ y < a.height then
    some (a.data.getD (x + y * a.width) default)
  else
    none

/-- `Array2::get_mut`: same bounds check and offset as `get`. -/
def get_mut [Inhabited T] (a : Array2 T) (x y : Nat) : Option T :=
  if x < a.width ∧ y < a.height then
    some (a.data.getD (x + y * a.width) default)
  else
    none

/-- `Index::index` / `IndexMut::index_mut` for `Array2`: same bounds check,
but out of bounds is `panic!("Array2 index out of bounds")`, modelled as
`Except.error` carrying the panic message. -/
def indexPanic [Inhabited T] (a : Array2 T) (x y : Nat) : Except String T :=
  if x < a.width ∧ y < a.height then
    Except.ok (a.data.getD (x + y * a.width) default)
  else
    Except.error "Array2 index out of bounds"

/-- `Array2::as_slice`: `from_raw_parts(ptr, width*height)` — the reads at
offsets `0..width*height`. -/
def as_slice [Inhabited T] (a : Array2 T) : List T :=
  (List.range (a.width * a.height)).map (fun k => a.data.getD k default)

/-- `Drop for Array2`: deallocation happens iff `*ptr != heap::EMPTY`. -/
def dropDeallocates (a : Array2 T) : Bool :=
  a.allocated

end Array2

/-- Replays a `while ptr < end { yield ptr; ptr += step }` loop for at most
`fuel` iterations, collecting the yielded pointers.  Every iterator of the
crate is such a loop; the fuel passed in each use is at least the number
of iterations the Rust loop performs. -/
def collectPtrs (step : Nat) : Nat → Nat → Nat → List Nat
  | 0, _, _ => []
  | fuel + 1, ptr, endp =>
    if ptr < endp then ptr :: collectPtrs step fuel (ptr + step) endp
    else []

namespace Array2

variable {T : Type}

/-- `Items::next` (and `ItemsMut::next`): yield `ptr`, advance by one
element (sized) or by one counter unit (zero-sized) — step 1 either way.
`iter()` starts at the base with `end = end()`. -/
def itemsL (a : Array2 T) : List Nat :=
  collectPtrs 1 a.endOff 0 a.endOff

/-- The values `iter()` yields: the reads at the yielded addresses. -/
def itemsValues [Inhabited T] (a : Array2 T) : List T :=
  a.itemsL.map (fun k => a.data.getD k default)

/-- `Rows::next` (and `RowsMut::next`): yield the slice `(ptr, len)` with
`len = width`, advance by `len`; `rows()` starts at the base with
`end = end()`. -/
def rowsL (a : Array2 T) : List (Nat × Nat) :=
  (collectPtrs a.width a.endOff 0 a.endOff).map (fun p => (p, a.width))

/-- `Array2::view_components`: validity check, clipping, and the
`(ptr, end, slice_len, array_width)` tuple, with the zero-sized branch
`(base, base + height)`.  Note the returned `slice_len` is the *mutated*
local `width` (clipped only in the valid branch). -/
def view_components (sized : Bool) (a : Array2 T) (x y width height : Nat) :
    Nat × Nat × Nat × Nat :=
  let input_is_valid :=
    decide (x < a.width) && decide (y < a.height) &&
    decide (width > 0) && decide (height > 0)
  if input_is_valid then
    let width := min width (a.width - x)
    let height := min height (a.height - y)
    if sized then
      let ptr := x + y * a.width
      (ptr, ptr + height * a.width, width, a.width)
    else
      (0, height, width, a.width)
  else
    (0, 0, width, a.width)

/-- `View::next` (and `ViewMut::next`): yield the slice
`(ptr, slice_len)`, advance by `array_width` (sized) or by one counter
unit (zero-sized); `view(x, y, w, h)` builds the state from
`view_components`. -/
def viewL (sized : Bool) (a : Array2 T) (x y w h : Nat) : List (Nat × Nat) :=
  let c := view_components sized a x y w h
  let step := if sized then c.2.2.2 else 1
  (collectPtrs step c.2.1 c.1 c.2.1).map (fun p => (p, c.2.2.1))

/-- `Array2::view_mut`: identical components and stepping as `view`
(`ViewMut::next` is textually the same loop as `View::next`). -/
def view_mutL (sized : Bool) (a : Array2 T) (x y w h : Nat) : List (Nat × Nat) :=
  let c := view_components sized a x y w h
  let step := if sized then c.2.2.2 else 1
  (collectPtrs step c.2.1 c.1 c.2.1).map (fun p => (p, c.2.2.1))

end Array2

/-! ### Codec (`Decodable`/`Encodable` impls)

The generic structured serializer is an external collaborator: the wire
form of an `Array2<T>` is its 3-field record `(width, height, data)`,
where `data` is the declared element sequence (its declared length is the
`len` handed to the `read_seq` closure).  Reading the two `u32` fields of
a well-formed record always succeeds; the per-element codec is an
abstract pair `encT : T → E`, `decT : E → Except Err T`. -/

/-- The 3-field wire record `{ width, height, data }` of `Array2`'s codec. -/
structure Wire (E : Type) where
  width : Nat
  height : Nat
  data : List E
  deriving Repr, DecidableEq

/-- Observable heap events of the decode loop: a successful
`ptr::write` at offset `i`, a `ptr::read` finalizing offset `i` during
rollback, and the `heap::deallocate` of the buffer. -/
inductive DecEvent where
  | writeAt (i : Nat)
  | finalizeAt (i : Nat)
  | dealloc
  deriving Repr, DecidableEq

/-- The `for i in 0..len` loop of `Decodable::decode`, carrying the
absolute offset `start` of the next slot: on `Ok(e)` write it at offset
`start` and continue; on `Err(e)` finalize offsets `0..start`
(`ptr::read` each), deallocate, and return the error unmodified.  The
result is paired with the list of heap events in the order they happen. -/
def decodeSeqGo (decT : E → Except Err T) (start : Nat) :
    List E → Except Err (List T) × List DecEvent
  | [] => (Except.ok [], [])
  | e :: es =>
    match decT e with
    | Except.ok t =>
      let r := decodeSeqGo decT (start + 1) es
      (r.1.map (fun ts => t :: ts), DecEvent.writeAt start :: r.2)
    | Except.error err =>
      (Except.error err,
        (List.range start).map DecEvent.finalizeAt ++ [DecEvent.dealloc])

/-- `Decodable::decode` for `Array2`: read `width`, `height`, then the
`data` sequence into a fresh allocation of the *declared* length, with
rollback on element failure.  The decode allocates unconditionally, so
the resulting array has `allocated = true`. -/
def decode (decT : E → Except Err T) (w : Wire E) :
    Except Err (Array2 T) × List DecEvent :=
  let r := decodeSeqGo decT 0 w.data
  (match r.1 with
   | Except.ok ts =>
     Except.ok { data := ts, width := w.width, height := w.height, allocated := true }
   | Except.error err => Except.error err,
   r.2)

/-- `Encodable::encode` for `Array2`: emit `width`, `height`, then a
sequence of declared length `width*height` holding each element of
`self.iter()` in order, encoded by the element codec. -/
def encode [Inhabited T] (encT : T → E) (a : Array2 T) : Wire E :=
  { width := a.width, height := a.height,
    data := a.itemsValues.map encT }

/-! ### Equality and ordering (`PartialEq`, `Eq`, `PartialOrd`, `Ord`) -/

/-- Slice `PartialEq`: equal lengths and pointwise-`beq` elements. -/
def sliceEq (beq : T → T → Bool) (xs ys : List T) : Bool :=
  xs.length == ys.length && (List.zip xs ys).all (fun p => beq p.1 p.2)

/-- Slice `Ord::cmp`: lexicographic — first non-equal element pair
decides, else the shorter slice is smaller. -/
def sliceCmp (c : T → T → Ordering) : List T → List T → Ordering
  | [], [] => Ordering.eq
  | [], _ :: _ => Ordering.lt
  | _ :: _, [] => Ordering.gt
  | x :: xs, y :: ys =>
    match c x y with
    | Ordering.eq => sliceCmp c xs ys
    | o => o

/-- `PartialEq for Array2`: widths, then heights, then `as_slice`s. -/
def eqArray [Inhabited T] (beq : T → T → Bool) (a b : Array2 T) : Bool :=
  (a.width == b.width) && (a.height == b.height) &&
    sliceEq beq a.as_slice b.as_slice

/-- `Ord for Array2` (`cmp`): `width`, then `height`, then the
`as_slice`s, short-circuiting at the first non-`Equal` level. -/
def cmpArray [Inhabited T] (c : T → T → Ordering) (a b : Array2 T) : Ordering :=
  match compare a.width b.width with
  | Ordering.eq =>
    match compare a.height b.height with
    | Ordering.eq => sliceCmp c a.as_slice b.as_slice
    | o => o
  | o => o

/-! ### Helper lemmas -/

theorem range'_eq_range_map (s n step : Nat) :
    List.range' s n step = (List.range n).map (fun i => s + i * step) := by
  induction n generalizing s with
  | zero => simp
  | succ n ih =>
    rw [List.range'_succ, ih (s + step), List.range_succ_eq_map]
    simp only [List.map_cons, List.map_map, Nat.zero_mul, Nat.add_zero, List.cons.injEq,
      true_and]
    refine List.map_congr_left fun a _ => ?_
    simp only [Function.comp_apply, Nat.succ_eq_add_one, Nat.succ_mul]
    omega

/-- A `ptr < end` loop with positive step and exactly `n` steps to go
collects the arithmetic progression, given at least `n` fuel. -/
theorem collectPtrs_run {step : Nat} (hstep : 0 < step) :
    ∀ (n fuel ptr : Nat), n ≤ fuel →
      collectPtrs step fuel ptr (ptr + n * step) = List.range' ptr n step
  | 0, fuel, ptr, _ => by cases fuel <;> simp [collectPtrs]
  | n + 1, fuel + 1, ptr, h => by
    have hlt : ptr < ptr + (n + 1) * step :=
      Nat.lt_add_of_pos_right (Nat.mul_pos (Nat.succ_pos n) hstep)
    have harr : ptr + (n + 1) * step = (ptr + step) + n * step := by ring
    rw [collectPtrs, if_pos hlt, harr,
      collectPtrs_run hstep n fuel (ptr + step) (Nat.le_of_succ_le_succ h),
      List.range'_succ]

theorem getD_map_range {T : Type} (f : Nat → T) {n k : Nat} (hk : k < n) (d : T) :
    ((List.range n).map f).getD k d = f k := by
  simp [List.getD_eq_getElem?_getD, List.getElem?_map, List.getElem?_range hk]

theorem getD_range_self {T : Type} (xs : List T) (d : T) :
    (List.range xs.length).map (fun k => xs.getD k d) = xs := by
  apply List.ext_getElem
  · simp
  · intro i h1 h2
    simp only [List.getElem_map, List.getElem_range]
    simp [List.getD_eq_getElem?_getD, List.getElem?_eq_getElem h2]

namespace Array2

theorem as_slice_eq_data [Inhabited T] (a : Array2 T)
    (hlen : a.data.length = a.width * a.height) : a.as_slice = a.data := by
  rw [as_slice, ← hlen]
  exact getD_range_self a.data default

theorem itemsL_eq_range (a : Array2 T) : a.itemsL = List.range a.endOff := by
  have h := collectPtrs_run Nat.one_pos a.endOff a.endOff 0 le_rfl
  simp only [Nat.zero_add, Nat.mul_one] at h
  rw [itemsL, h, List.range_eq_range']

theorem itemsValues_eq_data [Inhabited T] (a : Array2 T)
    (hlen : a.data.length = a.width * a.height) : a.itemsValues = a.data := by
  rw [itemsValues, itemsL_eq_range, endOff, ← hlen]
  exact getD_range_self a.data default

theorem rowsL_of_width_pos (a : Array2 T) (hw : 0 < a.width) :
    a.rowsL = (List.range a.height).map (fun i => (i * a.width, a.width)) := by
  have hend : a.endOff = a.height * a.width := by
    rw [endOff, Nat.mul_comm]
  have h : collectPtrs a.width (a.height * a.width) 0 (a.height * a.width) =
      List.range' 0 a.height a.width := by
    have h0 := collectPtrs_run hw a.height (a.height * a.width) 0
      (Nat.mul_comm a.width a.height ▸ Nat.le_mul_of_pos_left a.height hw)
    simpa using h0
  rw [rowsL, hend, h, range'_eq_range_map]
  simp

theorem rowsL_of_width_zero (a : Array2 T) (hw : a.width = 0) : a.rowsL = [] := by
  have hend : a.endOff = 0 := by rw [endOff, hw, Nat.zero_mul]
  rw [rowsL, hend]
  rfl

theorem view_components_valid (sized : Bool) (a : Array2 T) {x y w h : Nat}
    (hx : x < a.width) (hy : y < a.height) (hw : 0 < w) (hh : 0 < h) :
    view_components sized a x y w h =
      if sized then
        (x + y * a.width,
         (x + y * a.width) + min h (a.height - y) * a.width,
         min w (a.width - x), a.width)
      else
        (0, min h (a.height - y), min w (a.width - x), a.width) := by
  rw [view_components]
  simp [hx, hy, hw, hh]

theorem view_components_invalid (sized : Bool) (a : Array2 T) {x y w h : Nat}
    (hinv : a.width ≤ x ∨ a.height ≤ y ∨ w = 0 ∨ h = 0) :
    view_components sized a x y w h = (0, 0, w, a.width) := by
  have hcond : (decide (x < a.width) && decide (y < a.height) &&
      decide (w > 0) && decide (h > 0)) = false := by
    rcases hinv with h1 | h1 | h1 | h1
    · simp [Nat.not_lt.mpr h1]
    · simp [Nat.not_lt.mpr h1]
    · subst h1; simp
    · subst h1; simp
  rw [view_components]
  simp only [gt_iff_lt, hcond, Bool.false_eq_true, if_false]

theorem viewL_valid (a : Array2 T) {x y w h : Nat}
    (hx : x < a.width) (hy : y < a.height) (hw : 0 < w) (hh : 0 < h) :
    a.viewL true x y w h =
      (List.range (min h (a.height - y))).map
        (fun i => (x + (y + i) * a.width, min w (a.width - x))) := by
  have hW : 0 < a.width := Nat.lt_of_le_of_lt (Nat.zero_le x) hx
  rw [viewL, view_components_valid true a hx hy hw hh]
  simp only [if_true, reduceIte]
  set p := x + y * a.width with hp
  set eh := min h (a.height - y) with heh
  have hfuel : eh ≤ p + eh * a.width := by
    calc eh ≤ eh * a.width := Nat.le_mul_of_pos_right eh hW
    _ ≤ p + eh * a.width := Nat.le_add_left _ _
  have hrun := collectPtrs_run hW eh (p + eh * a.width) p hfuel
  rw [hrun, range'_eq_range_map]
  simp only [List.map_map]
  refine List.map_congr_left fun i _ => ?_
  simp only [Function.comp_apply, hp]
  have : x + y * a.width + i * a.width = x + (y + i) * a.width := by ring
  rw [this]

theorem viewL_valid_zst (a : Array2 T) {x y w h : Nat}
    (hx : x < a.width) (hy : y < a.height) (hw : 0 < w) (hh : 0 < h) :
    a.viewL false x y w h =
      (List.range (min h (a.height - y))).map
        (fun i => (i, min w (a.width - x))) := by
  rw [viewL, view_components_valid false a hx hy hw hh]
  simp only [Bool.false_eq_true, if_false, reduceIte]
  set eh := min h (a.height - y) with heh
  have hrun := collectPtrs_run Nat.one_pos eh eh 0 le_rfl
  simp only [Nat.zero_add, Nat.mul_one] at hrun
  rw [hrun, range'_eq_range_map]
  simp

theorem viewL_invalid (sized : Bool) (a : Array2 T) {x y w h : Nat}
    (hinv : a.width ≤ x ∨ a.height ≤ y ∨ w = 0 ∨ h = 0) :
    a.viewL sized x y w h = [] := by
  rw [viewL, view_components_invalid sized a hinv]
  cases sized <;> rfl

theorem view_mutL_eq_viewL (sized : Bool) (a : Array2 T) (x y w h : Nat) :
    a.view_mutL sized x y w h = a.viewL sized x y w h := rfl

end Array2

/-! ### Codec lemmas -/

theorem decodeSeqGo_map_ok (decT : E → Except Err T) (encT : T → E)
    (hrev : ∀ t, decT (encT t) = Except.ok t) :
    ∀ (ts : List T) (start : Nat),
      (decodeSeqGo decT start (ts.map encT)).1 = Except.ok ts
  | [], _ => rfl
  | t :: ts, start => by
    simp only [List.map_cons, decodeSeqGo, hrev t]
    rw [decodeSeqGo_map_ok decT encT hrev ts (start + 1)]
    rfl

theorem decodeSeqGo_ok_of_all (decT : E → Except Err T) :
    ∀ (es : List E) (start : Nat), (∀ x ∈ es, ∃ t, decT x = Except.ok t) →
      ∃ ts : List T,
        (decodeSeqGo decT start es).1 = Except.ok ts ∧ ts.length = es.length
  | [], _, _ => ⟨[], rfl, rfl⟩
  | e :: es, start, hall => by
    obtain ⟨t, ht⟩ := hall e (List.mem_cons_self e es)
    obtain ⟨ts, hts, hlen⟩ := decodeSeqGo_ok_of_all decT es (start + 1)
      (fun z hz => hall z (List.mem_cons_of_mem e hz))
    refine ⟨t :: ts, ?_, by simp [hlen]⟩
    simp only [decodeSeqGo, ht, hts]
    rfl

theorem decodeSeqGo_error (decT : E → Except Err T) (e : E) (post : List E)
    (err : Err) (he : decT e = Except.error err) :
    ∀ (pre : List E) (start : Nat), (∀ x ∈ pre, ∃ t, decT x = Except.ok t) →
      decodeSeqGo decT start (pre ++ e :: post) =
        (Except.error err,
          (List.range' start pre.length).map DecEvent.writeAt ++
            ((List.range (start + pre.length)).map DecEvent.finalizeAt ++
              [DecEvent.dealloc]))
  | [], start, _ => by
    simp only [List.nil_append, decodeSeqGo, he, List.length_nil, List.range'_zero,
      List.map_nil, List.nil_append, Nat.add_zero]
  | x :: pre, start, hall => by
    obtain ⟨t, ht⟩ := hall x (List.mem_cons_self x pre)
    have ih := decodeSeqGo_error decT e post err he pre (start + 1)
      (fun z hz => hall z (List.mem_cons_of_mem x hz))
    simp only [List.cons_append, decodeSeqGo, ht, List.append_eq, ih, List.length_cons]
    rw [List.range'_succ start pre.length 1]
    have harith : start + (pre.length + 1) = (start + 1) + pre.length := by omega
    rw [harith]
    simp [Except.map]

/-! ### Equality and ordering lemmas -/

theorem sliceEq_cons (beq : T → T → Bool) (x y : T) (xs ys : List T) :
    sliceEq beq (x :: xs) (y :: ys) = (beq x y && sliceEq beq xs ys) := by
  simp only [sliceEq, List.length_cons, List.zip_cons_cons, List.all_cons]
  have : ((xs.length + 1) == (ys.length + 1)) = (xs.length == ys.length) := by simp
  rw [this]
  cases beq x y <;> cases xs.length == ys.length <;>
    cases (xs.zip ys).all (fun p => beq p.1 p.2) <;> simp

theorem sliceEq_iff (beq : T → T → Bool) (hbeq : ∀ x y, beq x y = true ↔ x = y) :
    ∀ xs ys : List T, sliceEq beq xs ys = true ↔ xs = ys
  | [], [] => by simp [sliceEq]
  | [], _ :: _ => by simp [sliceEq]
  | _ :: _, [] => by simp [sliceEq]
  | x :: xs, y :: ys => by
    rw [sliceEq_cons, Bool.and_eq_true, hbeq, sliceEq_iff beq hbeq xs ys,
      List.cons_eq_cons]

end Grid

/-! ## Claims -/

/-- C1: the claim says `from_fn_with_points` hands the factory the `(x, y)`
coordinates of the slot being filled, so the element at `(x, y)` equals
`f(x, y)`.  The code's coordinate iterator
`(0..height).flat_map(|y| iter::repeat(y).zip(0..width))` yields pairs
whose FIRST component is the row, yet the closure destructures them as
`let (x, y) = …` and calls `f(x, y)`, so the factory receives the
coordinates swapped: the element at `(x, y)` is `f(y, x)`.  Evaluated at
the failing input `width = 2, height = 1, f = fun x _ => x`: the element
at `(1, 0)` is `f 0 1 = 0`, not `f 1 0 = 1`; on a 2x2 grid with
`f x y = 10*x + y` the row-major elements come out transposed. -/
theorem C1_from_fn_with_points_swaps_coordinates :
    (Grid.from_fn_with_points true 2 1 (fun x _ => x)).get 1 0 = some 0 ∧
    (Grid.from_fn_with_points true 2 1 (fun x _ => x)).get 1 0 ≠ some 1 ∧
    (Grid.from_fn_with_points true 2 2 (fun x y => 10 * x + y)).itemsValues
      = [0, 1, 10, 11] := by
  decide

/-- C2 counterexample: the claim says every construction operation fails
when `width == 0` or `height == 0` and that no live array with a zero
dimension is ever produced.  The code has no such check: `from_elem(0, 2, 0)`
(as in the crate's own `zero_width_array` test) returns a live array
reporting `width = 0, height = 2`, it merely skips the allocation. -/
theorem C2_zero_dims_accepted :
    (Grid.from_elem true 0 2 (0 : Nat)).width = 0 ∧
    (Grid.from_elem true 0 2 (0 : Nat)).height = 2 ∧
    (Grid.from_elem true 2 0 (0 : Nat)).height = 0 ∧
    (Grid.from_elem true 0 2 (0 : Nat)).allocated = false := by
  decide

/-- C2 (amended): construction with `width == 0` or `height == 0` does not
fail: each of the four constructors (from-generator,
from-generator-with-coordinates, from-template-clone, from-default)
returns a live array that reports the requested width and height, makes
no allocator call, and holds no elements. -/
theorem C2_amended_zero_dim_construction (T : Type) (sized : Bool) (w h : Nat)
    (f : Nat → T) (g : Nat → Nat → T) (tpl d : T) (hzero : w = 0 ∨ h = 0) :
    ((Grid.from_fn sized w h f).width = w ∧
      (Grid.from_fn sized w h f).height = h ∧
      (Grid.from_fn sized w h f).allocated = false ∧
      (Grid.from_fn sized w h f).itemsL = []) ∧
    ((Grid.from_fn_with_points sized w h g).width = w ∧
      (Grid.from_fn_with_points sized w h g).height = h ∧
      (Grid.from_fn_with_points sized w h g).allocated = false ∧
      (Grid.from_fn_with_points sized w h g).itemsL = []) ∧
    ((Grid.from_elem sized w h tpl).width = w ∧
      (Grid.from_elem sized w h tpl).height = h ∧
      (Grid.from_elem sized w h tpl).allocated = false ∧
      (Grid.from_elem sized w h tpl).itemsL = []) ∧
    ((Grid.from_default sized w h d).width = w ∧
      (Grid.from_default sized w h d).height = h ∧
      (Grid.from_default sized w h d).allocated = false ∧
      (Grid.from_default sized w h d).itemsL = []) := by
  have hreq : (sized && decide (w > 0) && decide (h > 0)) = false := by
    rcases hzero with rfl | rfl <;> simp
  have key : ∀ f' : Nat → T, Grid.from_fn sized w h f' =
      ⟨[], w, h, false⟩ := by
    intro f'
    rw [Grid.from_fn]
    simp only [hreq, Bool.false_eq_true, if_false]
  have hitems : Grid.Array2.itemsL (⟨[], w, h, false⟩ : Grid.Array2 T) = [] := by
    rcases hzero with rfl | rfl <;>
      simp [Grid.Array2.itemsL, Grid.Array2.endOff, Grid.collectPtrs]
  refine ⟨?_, ?_, ?_, ?_⟩ <;>
    first
      | exact ⟨by rw [key], by rw [key], by rw [key], by rw [key]; exact hitems⟩
      | exact ⟨by rw [Grid.from_fn_with_points, key],
          by rw [Grid.from_fn_with_points, key],
          by rw [Grid.from_fn_with_points, key],
          by rw [Grid.from_fn_with_points, key]; exact hitems⟩
      | exact ⟨by rw [Grid.from_elem, key], by rw [Grid.from_elem, key],
          by rw [Grid.from_elem, key],
          by rw [Grid.from_elem, key]; exact hitems⟩
      | exact ⟨by rw [Grid.from_default, key], by rw [Grid.from_default, key],
          by rw [Grid.from_default, key],
          by rw [Grid.from_default, key]; exact hitems⟩

/-- Witness for the amended C2 at `width = 0, height = 2`. -/
theorem C2_amended_zero_dim_construction_witness :
    (Grid.from_fn true 0 2 (fun k => k)).width = 0 ∧
    (Grid.from_fn true 0 2 (fun k => k)).allocated = false ∧
    (Grid.from_fn true 0 2 (fun k => k)).itemsL = [] := by
  have h := (C2_amended_zero_dim_construction Nat true 0 2 (fun k => k)
    (fun _ _ => 0) 0 0 (Or.inl rfl)).1
  exact ⟨h.1, h.2.2.1, h.2.2.2⟩

/-- C3: `view(x, y, w, h)` (and `view_mut`) on a sized element type: if
`x ≥ owner.width` or `y ≥ owner.height` or the requested width or height
is 0 it yields an empty sequence; otherwise it yields exactly
`effective_height = min(h, owner.height - y)` row slices, where slice `i`
is the slice descriptor `(x + (y+i)*owner.width, effective_width)` with
`effective_width = min(w, owner.width - x)` — i.e. the elements at
flattened offsets `x + (y+i)*owner.width` through
`x + (y+i)*owner.width + effective_width - 1`. -/
theorem C3_view_clipping (T : Type) (a : Grid.Array2 T) (x y w h : Nat) :
    ((a.width ≤ x ∨ a.height ≤ y ∨ w = 0 ∨ h = 0) →
      a.viewL true x y w h = [] ∧ a.view_mutL true x y w h = []) ∧
    (x < a.width → y < a.height → 0 < w → 0 < h →
      a.viewL true x y w h =
        (List.range (min h (a.height - y))).map
          (fun i => (x + (y + i) * a.width, min w (a.width - x))) ∧
      a.view_mutL true x y w h =
        (List.range (min h (a.height - y))).map
          (fun i => (x + (y + i) * a.width, min w (a.width - x))) ∧
      (a.viewL true x y w h).length = min h (a.height - y)) := by
  constructor
  · intro hinv
    exact ⟨Grid.Array2.viewL_invalid true a hinv,
      (Grid.Array2.view_mutL_eq_viewL true a x y w h).trans
        (Grid.Array2.viewL_invalid true a hinv)⟩
  · intro hx hy hw hh
    have hv := Grid.Array2.viewL_valid a hx hy hw hh
    refine ⟨hv, (Grid.Array2.view_mutL_eq_viewL true a x y w h).trans hv, ?_⟩
    rw [hv]
    simp

/-- Witness for C3 on the crate's 2x2 test array, window `(0,1,3,2)`:
one clipped row `[2, 3]`, i.e. the descriptor `(offset 2, length 2)`. -/
theorem C3_view_clipping_witness :
    (Grid.from_fn true 2 2 (fun k => k)).viewL true 0 1 3 2 = [(2, 2)] := by
  have h := ((C3_view_clipping Nat (Grid.from_fn true 2 2 (fun k => k)) 0 1 3 2).2
    (by decide) (by decide) (by decide) (by decide)).1
  rw [h]
  decide
example :
    (Grid.from_fn true 2 2 (fun k => k)).get 1 0 = some 1 := by decide
example :
    (Grid.from_fn true 2 2 (fun k => k)).get 0 1 = some 2 := by decide
example :
    (Grid.from_fn true 2 2 (fun k => k)).get 2 0 = none := by decide
example :
    (Grid.from_fn true 2 2 (fun k => k)).itemsValues = [0, 1, 2, 3] := by decide
example :
    (Grid.from_fn true 2 2 (fun k => k)).rowsL = [(0, 2), (2, 2)] := by decide
example :
    (Grid.from_fn true 2 2 (fun k => k)).viewL true 1 0 1 2 = [(1, 1), (3, 1)] := by decide
example :
    (Grid.from_fn true 2 2 (fun k => k)).viewL true 0 1 3 2 = [(2, 2)] := by decide
example :
    (Grid.from_fn true 2 2 (fun k => k)).viewL true 2 0 1 1 = [] := by decide
example :
    (Grid.from_fn true 2 2 (fun k => k)).viewL true 1 1 0 1 = [] := by decide
-- the coordinate swap in from_fn_with_points: element at (1,0) is f 0 1
example :
    (Grid.from_fn_with_points true 2 1 (fun x _ => x)).get 1 0 = some 0 := by decide
-- zero-dimension constructions succeed
example :
    (Grid.from_elem true 0 2 (0 : Nat)).width = 0 := by decide
-- zero-sized element type: 2x2 array of Unit
example :
    (Grid.from_fn false 2 2 (fun _ => ())).itemsL.length = 4 := by decide
example :
    (Grid.from_fn false 2 2 (fun _ => ())).rowsL = [(0, 2), (2, 2)] := by decide
example :
    ((Grid.from_fn false 2 2 (fun _ => ())).viewL false 0 0 3 3).map Prod.snd
      = [2, 2] := by decide

/-- C4: for every array whose element codec is reversible
(`decT (encT t) = ok t`), `decode (encode A)` succeeds and returns an
array with the same width, the same height, and an element-wise identical
row-major buffer. -/
theorem C4_roundtrip (T E Err : Type) [Inhabited T]
    (encT : T → E) (decT : E → Except Err T)
    (hrev : ∀ t, decT (encT t) = Except.ok t)
    (a : Grid.Array2 T) (hlen : a.data.length = a.width * a.height) :
    ∃ b : Grid.Array2 T,
      (Grid.decode decT (Grid.encode encT a)).1 = Except.ok b ∧
      b.width = a.width ∧ b.height = a.height ∧ b.data = a.data := by
  refine ⟨⟨a.data, a.width, a.height, true⟩, ?_, rfl, rfl, rfl⟩
  rw [Grid.decode, Grid.encode]
  simp only [Grid.Array2.itemsValues_eq_data a hlen]
  have h := Grid.decodeSeqGo_map_ok decT encT hrev a.data 0
  simp [h]

/-- Witness for C4: round trip of the crate's 2x2 counting array through
the identity element codec. -/
theorem C4_roundtrip_witness :
    ∃ b : Grid.Array2 Nat,
      (Grid.decode (fun e => Except.ok (e : Nat))
        (Grid.encode (fun t => t) (Grid.from_fn true 2 2 (fun k => k)))).1
          = (Except.ok b : Except Unit (Grid.Array2 Nat)) ∧
      b.width = (Grid.from_fn true 2 2 (fun k => k)).width ∧
      b.height = (Grid.from_fn true 2 2 (fun k => k)).height ∧
      b.data = (Grid.from_fn true 2 2 (fun k => k)).data :=
  C4_roundtrip Nat Nat Unit (fun t => t) (fun e => Except.ok e)
    (fun _ => rfl) (Grid.from_fn true 2 2 (fun k => k)) (by decide)

/-- C5: if element `i` of the data sequence fails to decode, the decode
loop finalizes (reads back) each of the already-placed elements
`0 .. i-1`, releases the allocation, and only then propagates the error
unmodified: the result is the original error and the heap-event trace is
the `i` writes followed by the `i` finalizations followed by the single
deallocation — no partially initialized buffer survives. -/
theorem C5_decode_rollback (T E Err : Type) (decT : E → Except Err T)
    (wire : Grid.Wire E) (pre : List E) (e : E) (post : List E) (err : Err)
    (hdata : wire.data = pre ++ e :: post)
    (hpre : ∀ z ∈ pre, ∃ t, decT z = Except.ok t)
    (he : decT e = Except.error err) :
    (Grid.decode decT wire).1 = (Except.error err : Except Err (Grid.Array2 T)) ∧
    (Grid.decode decT wire).2 =
      (List.range pre.length).map Grid.DecEvent.writeAt ++
        ((List.range pre.length).map Grid.DecEvent.finalizeAt ++
          [Grid.DecEvent.dealloc]) := by
  have h := Grid.decodeSeqGo_error decT e post err he pre 0 hpre
  rw [Grid.decode, hdata, h]
  simp [List.range_eq_range']

/-- Witness for C5: decoding `[ok 1, ok 2, error "boom", ok 5]` through
the identity codec writes slots 0 and 1, finalizes slots 0 and 1,
deallocates, and returns the error unmodified. -/
theorem C5_decode_rollback_witness :
    (Grid.decode (fun z => z)
        (⟨9, 9, [Except.ok 1, Except.ok 2, Except.error "boom", Except.ok 5]⟩ :
          Grid.Wire (Except String Nat))).1
      = (Except.error "boom" : Except String (Grid.Array2 Nat)) ∧
    (Grid.decode (fun z => z)
        (⟨9, 9, [Except.ok 1, Except.ok 2, Except.error "boom", Except.ok 5]⟩ :
          Grid.Wire (Except String Nat))).2
      = (List.range 2).map Grid.DecEvent.writeAt ++
          ((List.range 2).map Grid.DecEvent.finalizeAt ++
            [Grid.DecEvent.dealloc]) :=
  C5_decode_rollback Nat (Except String Nat) String (fun z => z)
    ⟨9, 9, [Except.ok 1, Except.ok 2, Except.error "boom", Except.ok 5]⟩
    [Except.ok 1, Except.ok 2] (Except.error "boom") [Except.ok 5] "boom"
    rfl
    (by intro z hz; fin_cases hz <;> exact ⟨_, rfl⟩)
    rfl

/-- C6: on a live array, in-bounds `get`/`get_mut` return the element at
flattened offset `x + y*width` and indexed access returns the same
element; out of bounds, `get`/`get_mut` return `none` (never a fatal
stop) while indexed access stops fatally with the fixed descriptive
message (never `none`). -/
theorem C6_access_families (T : Type) [Inhabited T] (a : Grid.Array2 T)
    (hlen : a.data.length = a.width * a.height) (x y : Nat) :
    (x < a.width → y < a.height →
      ∃ t, a.data[x + y * a.width]? = some t ∧
        a.get x y = some t ∧ a.get_mut x y = some t ∧
        a.indexPanic x y = Except.ok t) ∧
    ((a.width ≤ x ∨ a.height ≤ y) →
      a.get x y = none ∧ a.get_mut x y = none ∧
      a.indexPanic x y = Except.error "Array2 index out of bounds") := by
  constructor
  · intro hx hy
    have ho : x + y * a.width < a.data.length := by
      rw [hlen]
      calc x + y * a.width < a.width + y * a.width := by omega
        _ = (y + 1) * a.width := by ring
        _ ≤ a.height * a.width := Nat.mul_le_mul_right a.width hy
        _ = a.width * a.height := Nat.mul_comm ..
    refine ⟨a.data[x + y * a.width], ?_, ?_, ?_, ?_⟩
    · exact List.getElem?_eq_getElem ho
    · rw [Grid.Array2.get, if_pos ⟨hx, hy⟩]
      simp [List.getD_eq_getElem?_getD, List.getElem?_eq_getElem ho]
    · rw [Grid.Array2.get_mut, if_pos ⟨hx, hy⟩]
      simp [List.getD_eq_getElem?_getD, List.getElem?_eq_getElem ho]
    · rw [Grid.Array2.indexPanic, if_pos ⟨hx, hy⟩]
      simp [List.getD_eq_getElem?_getD, List.getElem?_eq_getElem ho]
  · intro hout
    have hcond : ¬(x < a.width ∧ y < a.height) := by
      rcases hout with h1 | h1 <;> omega
    exact ⟨by rw [Grid.Array2.get, if_neg hcond],
      by rw [Grid.Array2.get_mut, if_neg hcond],
      by rw [Grid.Array2.indexPanic, if_neg hcond]⟩

/-- Witness for C6, out-of-bounds branch at `(2, 0)` on the 2x2 array. -/
theorem C6_access_families_witness :
    (Grid.from_fn true 2 2 (fun k => k)).get 2 0 = none ∧
    (Grid.from_fn true 2 2 (fun k => k)).get_mut 2 0 = none ∧
    (Grid.from_fn true 2 2 (fun k => k)).indexPanic 2 0 =
      Except.error "Array2 index out of bounds" :=
  (C6_access_families Nat (Grid.from_fn true 2 2 (fun k => k))
    (by decide) 2 0).2 (Or.inl (by decide))

/-- For positive dimensions and a positively sized element type,
`from_fn` makes exactly `width*height` factory calls and fills the buffer
in row-major order: call `k`'s result is the element at
`(k mod width, k div width)`. -/
theorem from_fn_row_major_fill (T : Type) [Inhabited T] (w h : Nat)
    (f : Nat → T) (hw : 0 < w) (hh : 0 < h) :
    Grid.from_fn_invocations true w h = w * h ∧
    (Grid.from_fn true w h f).data = (List.range (w * h)).map f ∧
    (∀ k, k < w * h →
      (Grid.from_fn true w h f).get (k % w) (k / w) = some (f k)) := by
  have key : Grid.from_fn true w h f =
      ⟨(List.range (w * h)).map f, w, h, true⟩ := by
    rw [Grid.from_fn]
    simp [hw, hh]
  refine ⟨by rw [Grid.from_fn_invocations]; simp [hw, hh], by rw [key], ?_⟩
  intro k hk
  rw [key, Grid.Array2.get]
  have hx : k % w < w := Nat.mod_lt k hw
  have hy : k / w < h := Nat.div_lt_of_lt_mul hk
  rw [if_pos ⟨hx, hy⟩]
  simp only
  rw [Nat.mod_add_div' k w]
  rw [Grid.getD_map_range f hk]

/-- C7: the claim says `from_fn` invokes the factory exactly
`width*height` times for every `width > 0, height > 0`, filling row-major
(2x2 counting generator reads `[0, 1, 2, 3]`).  That holds for positively
sized element types, but the fill loop is gated on `allocation_required =
size_of::<T>() > 0 && width > 0 && height > 0`, so for a zero-footprint
element type the factory is invoked 0 times, not `width*height`, although
the spec explicitly requires the calls ("the generator is still called
width*height times … so that any caller-observable side effects remain
correct").  Evaluated at the failing input (zero-footprint element type,
`width = 2, height = 2`): 0 invocations instead of 4, against 4
invocations and the row-major `[0, 1, 2, 3]` fill of the sized case. -/
theorem C7_zst_factory_skipped :
    Grid.from_fn_invocations false 2 2 = 0 ∧
    Grid.from_fn_invocations false 2 2 ≠ 2 * 2 ∧
    Grid.from_fn_invocations true 2 2 = 2 * 2 ∧
    (Grid.from_fn true 2 2 (fun k => (k : Nat))).data
      = (List.range (2 * 2)).map (fun k => k) ∧
    (Grid.from_fn true 2 2 (fun k => (k : Nat))).itemsValues
      = [0, 1, 2, 3] := by
  decide

/-- C8 counterexample: the claim says a zero-footprint-element array's row
iterator yields exactly `height` rows of length `width`.  For
`width = 0, height = 2` the array reports height 2 but the row iterator
yields no rows at all (`end()` is `width*height = 0` away from the base,
so the very first `ptr < end` test fails). -/
theorem C8_zst_zero_width_rows :
    (Grid.from_fn false 0 2 (fun _ => ())).height = 2 ∧
    (Grid.from_fn false 0 2 (fun _ => ())).width = 0 ∧
    (Grid.from_fn false 0 2 (fun _ => ())).rowsL = [] := by
  decide

/-- C8 (amended): an array of a zero-footprint element type reports the
exact width and height it was constructed with, its element iterator
yields exactly `width*height` elements, its row iterator yields exactly
`height` rows of length `width` when `width > 0` (and no rows when
`width = 0`), windowed views clip exactly as for sized elements
(`effective_height` slices of length `effective_width`, empty when the
request is invalid), and no allocator call is made during construction
or destruction. -/
theorem C8_zst_behaviour (T : Type) (w h : Nat) (f : Nat → T) :
    (Grid.from_fn false w h f).width = w ∧
    (Grid.from_fn false w h f).height = h ∧
    (Grid.from_fn false w h f).allocated = false ∧
    (Grid.from_fn false w h f).dropDeallocates = false ∧
    (Grid.from_fn false w h f).itemsL.length = w * h ∧
    (0 < w → (Grid.from_fn false w h f).rowsL =
      (List.range h).map (fun i => (i * w, w))) ∧
    (w = 0 → (Grid.from_fn false w h f).rowsL = []) ∧
    (∀ x y vw vh, x < w → y < h → 0 < vw → 0 < vh →
      (Grid.from_fn false w h f).viewL false x y vw vh =
        (List.range (min vh (h - y))).map (fun i => (i, min vw (w - x)))) ∧
    (∀ x y vw vh, (w ≤ x ∨ h ≤ y ∨ vw = 0 ∨ vh = 0) →
      (Grid.from_fn false w h f).viewL false x y vw vh = []) := by
  have key : Grid.from_fn false w h f = ⟨[], w, h, false⟩ := by
    rw [Grid.from_fn]
    simp
  rw [key]
  refine ⟨rfl, rfl, rfl, rfl, ?_, ?_, ?_, ?_, ?_⟩
  · rw [Grid.Array2.itemsL_eq_range, List.length_range]
    rfl
  · intro hw
    exact Grid.Array2.rowsL_of_width_pos ⟨[], w, h, false⟩ hw
  · intro hw
    exact Grid.Array2.rowsL_of_width_zero ⟨[], w, h, false⟩ hw
  · intro x y vw vh hx hy hvw hvh
    exact Grid.Array2.viewL_valid_zst ⟨[], w, h, false⟩ hx hy hvw hvh
  · intro x y vw vh hinv
    exact Grid.Array2.viewL_invalid false ⟨[], w, h, false⟩ hinv

/-- Witness for the amended C8 at a 2x2 zero-footprint array: the row
iterator yields the two full rows. -/
theorem C8_zst_behaviour_witness :
    (Grid.from_fn false 2 2 (fun _ => ())).rowsL =
      (List.range 2).map (fun i => (i * 2, 2)) :=
  (C8_zst_behaviour Unit 2 2 (fun _ => ())).2.2.2.2.2.1 (by decide)

/-- C9: two arrays are equal iff their widths are equal, their heights are
equal and their buffers are element-wise equal; `cmp` compares width,
then height, then the flattened buffers lexicographically; when the
widths (or, widths equal, the heights) differ the result is the
width (height) comparison and is independent of the element comparator —
no element comparison is consulted. -/
theorem C9_eq_and_ord (T : Type) [Inhabited T] (beq : T → T → Bool)
    (c : T → T → Ordering) (hbeq : ∀ u v, beq u v = true ↔ u = v)
    (a b : Grid.Array2 T)
    (ha : a.data.length = a.width * a.height)
    (hb : b.data.length = b.width * b.height) :
    (Grid.eqArray beq a b = true ↔
      (a.width = b.width ∧ a.height = b.height ∧ a.data = b.data)) ∧
    (Grid.cmpArray c a b =
      (match compare a.width b.width with
       | Ordering.eq =>
         match compare a.height b.height with
         | Ordering.eq => Grid.sliceCmp c a.data b.data
         | o => o
       | o => o)) ∧
    (a.width ≠ b.width →
      Grid.cmpArray c a b = compare a.width b.width ∧
      ∀ c' : T → T → Ordering, Grid.cmpArray c' a b = Grid.cmpArray c a b) ∧
    (a.width = b.width → a.height ≠ b.height →
      Grid.cmpArray c a b = compare a.height b.height ∧
      ∀ c' : T → T → Ordering, Grid.cmpArray c' a b = Grid.cmpArray c a b) := by
  have hsa := Grid.Array2.as_slice_eq_data a ha
  have hsb := Grid.Array2.as_slice_eq_data b hb
  refine ⟨?_, ?_, ?_, ?_⟩
  · rw [Grid.eqArray, hsa, hsb]
    simp only [Bool.and_eq_true, beq_iff_eq,
      Grid.sliceEq_iff beq hbeq a.data b.data, and_assoc]
  · rw [Grid.cmpArray, hsa, hsb]
  · intro hne
    have hc : compare a.width b.width ≠ Ordering.eq := fun hcontra =>
      hne (Nat.compare_eq_eq.mp hcontra)
    rcases hcmp : compare a.width b.width with h1 | h1 | h1
    · exact ⟨by rw [Grid.cmpArray, hcmp], fun c' => by
        rw [Grid.cmpArray, hcmp, Grid.cmpArray, hcmp]⟩
    · exact absurd hcmp hc
    · exact ⟨by rw [Grid.cmpArray, hcmp], fun c' => by
        rw [Grid.cmpArray, hcmp, Grid.cmpArray, hcmp]⟩
  · intro hweq hne
    have hw : compare a.width b.width = Ordering.eq := Nat.compare_eq_eq.mpr hweq
    have hc : compare a.height b.height ≠ Ordering.eq := fun hcontra =>
      hne (Nat.compare_eq_eq.mp hcontra)
    rcases hcmp : compare a.height b.height with h1 | h1 | h1
    · exact ⟨by rw [Grid.cmpArray, hw, hcmp], fun c' => by
        rw [Grid.cmpArray, hw, hcmp, Grid.cmpArray, hw, hcmp]⟩
    · exact absurd hcmp hc
    · exact ⟨by rw [Grid.cmpArray, hw, hcmp], fun c' => by
        rw [Grid.cmpArray, hw, hcmp, Grid.cmpArray, hw, hcmp]⟩

/-- Witness for C9: arrays of widths 1 and 2 are ordered by the width
comparison alone. -/
theorem C9_eq_and_ord_witness :
    Grid.cmpArray compare (Grid.from_fn true 1 2 (fun k => k))
        (Grid.from_fn true 2 2 (fun k => k)) =
      compare (Grid.from_fn true 1 2 (fun k => k)).width
        (Grid.from_fn true 2 2 (fun k => k)).width :=
  ((C9_eq_and_ord Nat (fun u v => u == v) compare (fun _ _ => beq_iff_eq)
    (Grid.from_fn true 1 2 (fun k => k)) (Grid.from_fn true 2 2 (fun k => k))
    (by decide) (by decide)).2.2.1 (by decide)).1

/-- C10: decode never compares the declared sequence length against
`width*height`: whenever the two dimension fields and every declared
element decode successfully, decode succeeds and returns an array
carrying the decoded width and height over a buffer of exactly the
declared number of elements — even when that number differs from
`width*height`. -/
theorem C10_decode_skips_len_check (T E Err : Type) (decT : E → Except Err T)
    (wire : Grid.Wire E)
    (hall : ∀ z ∈ wire.data, ∃ t, decT z = Except.ok t) :
    ∃ b : Grid.Array2 T,
      (Grid.decode decT wire).1 = Except.ok b ∧
      b.width = wire.width ∧ b.height = wire.height ∧
      b.data.length = wire.data.length := by
  obtain ⟨ts, hts, hlen⟩ := Grid.decodeSeqGo_ok_of_all decT wire.data 0 hall
  refine ⟨⟨ts, wire.width, wire.height, true⟩, ?_, rfl, rfl, hlen⟩
  rw [Grid.decode]
  simp [hts]

/-- Witness for C10: a wire record declaring `width = 5, height = 7` but
carrying a single element decodes to a live 5x7 array over a 1-element
buffer. -/
theorem C10_decode_skips_len_check_witness :
    ∃ b : Grid.Array2 Nat,
      (Grid.decode (fun z => z)
        (⟨5, 7, [Except.ok 3]⟩ : Grid.Wire (Except Unit Nat))).1
          = Except.ok b ∧
      b.width = 5 ∧ b.height = 7 ∧ b.data.length = 1 :=
  C10_decode_skips_len_check Nat (Except Unit Nat) Unit (fun z => z)
    ⟨5, 7, [Except.ok 3]⟩
    (by intro z hz; fin_cases hz; exact ⟨3, rfl⟩)
